import Mathlib

/-!
Shallow embedding of the AIPDFSummary job-queue subsystem
(src/app/main.py, src/app/worker.py) for checking the specification.

A Redis hash (the Status Record) is modelled as an association list of
string fields; each `hset(key, mapping=...)` performed by the code is one
`Mapping` value, applied field by field.  The external collaborators
(base64 stdlib, pypdf, pdf2image, the Gemini model) are abstracted as an
oracle `Env` giving the outcome of each external call; everything the
repository code itself does (control flow, which fields are written, in
which order, what is acknowledged) is translated directly from the source.
-/

set_option autoImplicit false

namespace AIPDF

/-- A field mapping as passed to `redis.hset(key, mapping=...)`:
an ordered list of field/value pairs. -/
abbrev Mapping := List (String × String)

/-- Set one field of a record, replacing an existing binding (Redis hash
field semantics: last write wins, other fields untouched). -/
def setField (r : Mapping) (k v : String) : Mapping :=
  match r with
  | [] => [(k, v)]
  | (k0, v0) :: rest =>
      if k0 = k then (k, v) :: rest else (k0, v0) :: setField rest k v

/-- Read one field of a record (`hget` / dict lookup). -/
def getField (r : Mapping) (k : String) : Option String :=
  match r with
  | [] => none
  | (k0, v0) :: rest => if k0 = k then some v0 else getField rest k

/-- Apply one `hset` mapping to a record, field by field, in order. -/
def applyWrite (r : Mapping) (w : Mapping) : Mapping :=
  w.foldl (fun acc kv => setField acc kv.1 kv.2) r

/-- Apply a sequence of `hset` mappings to a record. -/
def applyWrites (r : Mapping) (tr : List Mapping) : Mapping :=
  tr.foldl applyWrite r

/-- The record states after each successive write of a trace. -/
def statesAfter (r : Mapping) : List Mapping → List Mapping
  | [] => []
  | w :: tr => applyWrite r w :: statesAfter (applyWrite r w) tr

/-- A Python exception as the worker observes it: its message and whether
it is a `ValueError` (the worker catches `ValueError` separately on the
gemini branch). -/
structure Exn where
  msg : String
  isVE : Bool
deriving DecidableEq, Repr

/-- An HTTP error response raised by the FastAPI handlers
(`HTTPException(status_code, detail)`). -/
structure HttpError where
  code : Nat
  detail : String
deriving DecidableEq, Repr

/-! ## Producer: `upload_file` (src/app/main.py lines 230-278) -/

/-- Observable side effects of `upload_file`, in program order:
reading the uploaded bytes, `xadd` of the task to the `pdf_tasks`
stream, and `hset` of the initial Status Record.  The base64 transport
encoding of the payload is stdlib code (it round-trips), so the effect
carries the raw bytes. -/
inductive UploadEffect where
  | readFile
  | xadd (docId : String) (payload : List Nat) (parserArg : String)
  | hsetStatus (docId : String) (m : Mapping)
deriving DecidableEq, Repr

/-- The bytes of `b'%PDF-'`, the header checked by `upload_file`. -/
def pdfMagic : List Nat := [37, 80, 68, 70, 45]

/-- Python `str.endswith`, on the character lists of the strings. -/
def strEndsWith (s t : String) : Bool :=
  t.toList.isSuffixOf s.toList

/-- The initial Status Record mapping written by `upload_file`
(main.py lines 267-273). -/
def initialStatusMapping : Mapping :=
  [("status", "queued"),
   ("progress", "Task queued for processing"),
   ("current_step", "init"),
   ("total_steps", "5"),
   ("current_step_number", "0")]

/-- `upload_file` from main.py: filename suffix check, read, PDF header
check, `xadd` to the stream, then `hset` of the initial Status Record.
Any exception raised inside the handler body, including the two
validation `HTTPException(400, ...)` raises, is caught by the trailing
`except Exception` clause and re-raised as
`HTTPException(500, str(e))`, where `str` of an HTTPException is
`"<code>: <detail>"`.  The fresh uuid4 is passed in as `docId`. -/
def upload_file (filename : String) (content : List Nat)
    (parserArg : String) (docId : String) :
    List UploadEffect × Except HttpError (String × String) :=
  let wrap : HttpError → HttpError :=
    fun e => ⟨500, toString e.code ++ ": " ++ e.detail⟩
  if ¬ strEndsWith filename ".pdf" then
    ([], .error (wrap ⟨400, "Only PDF files are allowed"⟩))
  else if ¬ pdfMagic.isPrefixOf content then
    ([.readFile],
     .error (wrap ⟨400, "Invalid PDF file: File does not start with PDF header"⟩))
  else
    ([.readFile, .xadd docId content parserArg,
      .hsetStatus docId initialStatusMapping],
     .ok ("File uploaded successfully", docId))

/-! ## Status query: `get_status` (src/app/main.py lines 280-304) -/

/-- The response dict built by `get_status`. -/
structure StatusResponse where
  status : String
  content : String
  summary : String
  error : String
  progress : String
  current_step : String
  total_steps : String
  current_step_number : String
deriving DecidableEq, Repr

/-- `get_status` from main.py: `hgetall` of an unknown key yields an empty
hash, which raises `HTTPException(404, "Document not found")`; the
`except HTTPException: raise` clause passes it through unchanged.
Otherwise each field is read with a default. -/
def get_status (record : Mapping) : Except HttpError StatusResponse :=
  if record = [] then
    .error ⟨404, "Document not found"⟩
  else
    .ok
      { status := (getField record "status").getD "unknown"
        content := (getField record "content").getD ""
        summary := (getField record "summary").getD ""
        error := (getField record "error").getD ""
        progress := (getField record "progress").getD ""
        current_step := (getField record "current_step").getD ""
        total_steps := (getField record "total_steps").getD "0"
        current_step_number := (getField record "current_step_number").getD "0" }

/-- The status endpoint over a whole store: the store maps each
`document_id` to its hash, the empty hash meaning no record exists. -/
def get_status_endpoint (store : String → Mapping) (docId : String) :
    Except HttpError StatusResponse :=
  get_status (store docId)

/-! ## External collaborators, as an oracle

`base64.b64decode`, `pypdf`, `pdf2image`/PIL and the Gemini model are
library or network calls outside the repository; only the success or
failure (and returned text) of each call is relevant to the worker, so
they are parameters. -/

/-- Outcomes of the external calls made while processing one entry. -/
structure Env where
  /-- whether `base64.b64decode(content)` succeeds (worker.py line 53) -/
  decodeOk : Bool
  /-- `PdfReader` page loop of `process_with_pypdf`: the accumulated
  extracted text, or the exception it raises -/
  pypdfExtract : Except Exn String
  /-- `convert_from_bytes` plus the PNG/base64 step of each page: the
  base64 image string of each page, or the exception raised -/
  convert : Except Exn (List String)
  /-- the per-page Gemini vision call on one base64 image: the response
  text, or the exception raised -/
  vision : String → Except Exn String
  /-- a Gemini text call (`model.generate_content_async(prompt)`):
  the response text, or the exception raised -/
  generate : String → Except Exn String

/-! ## Processing Backends (src/app/main.py lines 58-228) -/

/-- The summary prompt built in `process_with_pypdf` and
`process_with_gemini` (text truncated to its first 10000 characters). -/
def summaryPrompt (text : String) : String :=
  "Please analyze the following text and provide a plain text summary (no markdown formatting) with:\njust a single paragraph of a concise summary (2-5 sentences)\n\nText:\n"
    ++ String.mk (text.toList.take 10000)
    ++ "  # Limit to first 10000 chars to avoid token limits\n"

/-- `process_with_pypdf` (main.py lines 58-101): extract text with
`PdfReader`, ask the model for a summary, wrap the text in a markdown
footer.  It performs no Redis writes; any exception propagates. -/
def process_with_pypdf (env : Env) : Except Exn (String × String) :=
  match env.pypdfExtract with
  | .error e => .error e
  | .ok text =>
      match env.generate (summaryPrompt text) with
      | .error e => .error e
      | .ok summary =>
          .ok ("\n\n" ++ text
                ++ "\n\n---\n*This content was extracted using PyPDF and formatted in markdown.*",
               summary)

/-- The per-page progress mapping written by `process_with_gemini`
(main.py lines 114-121), for page `i` of `total`. -/
def pageMapping (i total : Nat) : Mapping :=
  [("progress", "Processing page " ++ toString i ++ "/" ++ toString total),
   ("current_step", "process"),
   ("current_step_number", "3")]

/-- The progress mapping written before the summary call in
`process_with_gemini` (main.py lines 203-210). -/
def summaryMapping : Mapping :=
  [("progress", "Generating summary..."),
   ("current_step", "summary"),
   ("current_step_number", "4")]

/-- The page loop of `process_with_gemini` (main.py lines 112-189):
for each page, write a progress mapping, call the vision model, and keep
the stripped response text when non-empty; the first exception aborts
the loop and propagates.  Returns the Redis write trace and either the
collected page texts or the exception. -/
def geminiLoop (env : Env) (total : Nat) :
    List (Nat × String) → List Mapping × Except Exn (List String)
  | [] => ([], .ok [])
  | (i, img) :: rest =>
      match env.vision img with
      | .error e => ([pageMapping i total], .error e)
      | .ok t =>
          let (tr, res) := geminiLoop env total rest
          (pageMapping i total :: tr,
           res.map (fun texts => if t.trim = "" then texts else t.trim :: texts))

/-- `process_with_gemini` (main.py lines 103-228): convert the PDF to
page images, run the page loop, write the summary-progress mapping, call
the model for a summary, and wrap the joined text in a markdown footer.
Returns its Redis write trace and the result or the propagated
exception. -/
def process_with_gemini (env : Env) :
    List Mapping × Except Exn (String × String) :=
  match env.convert with
  | .error e => ([], .error e)
  | .ok images =>
      let total := images.length
      let (tr, res) := geminiLoop env total (images.enumFrom 1)
      match res with
      | .error e => (tr, .error e)
      | .ok texts =>
          let content := String.intercalate "\n\n" texts
          match env.generate (summaryPrompt content) with
          | .error e => (tr ++ [summaryMapping], .error e)
          | .ok summary =>
              (tr ++ [summaryMapping],
               .ok ("\n\n" ++ content
                     ++ "\n\n---\n*This content was extracted using Google Gemini Vision API and formatted in markdown.*",
                    summary))

/-! ## Worker: `process_document` and the main loop
(src/app/worker.py lines 25-163 and 165-232) -/

/-- The first mapping written by `process_document`
(worker.py lines 32-41). -/
def processingInitMapping : Mapping :=
  [("status", "processing"),
   ("progress", "Starting PDF processing..."),
   ("current_step", "init"),
   ("total_steps", "5"),
   ("current_step_number", "0")]

/-- The decode-step progress mapping (worker.py lines 45-52). -/
def decodeStepMapping : Mapping :=
  [("progress", "Decoding PDF content..."),
   ("current_step", "decode"),
   ("current_step_number", "1")]

/-- The mapping written when base64 decoding fails
(worker.py lines 56-63). -/
def decodeFailMapping : Mapping :=
  [("status", "error"),
   ("error", "Invalid content format in Redis"),
   ("progress", "Failed to decode PDF content")]

/-- The convert-step progress mapping of the gemini branch
(worker.py lines 71-78). -/
def convertStepMapping : Mapping :=
  [("progress", "Converting PDF to images..."),
   ("current_step", "convert"),
   ("current_step_number", "2")]

/-- The process-step progress mapping of the pypdf branch
(worker.py lines 112-119). -/
def pypdfStepMapping : Mapping :=
  [("progress", "Processing with PyPDF..."),
   ("current_step", "process"),
   ("current_step_number", "2")]

/-- The completion mapping (worker.py lines 84-94 and 125-135): a single
`hset` carrying the terminal state, the content and the summary. -/
def completedMapping (content summary : String) : Mapping :=
  [("status", "completed"),
   ("content", content),
   ("summary", summary),
   ("progress", "Processing completed successfully"),
   ("current_step", "complete"),
   ("current_step_number", "5")]

/-- The error mapping written by the exception handlers of
`process_document` (worker.py lines 99-106, 139-146, 155-162). -/
def errorMapping (msg : String) : Mapping :=
  [("status", "error"),
   ("error", msg),
   ("progress", "Error: " ++ msg)]

/-- `process_document` (worker.py lines 25-163): the ordered trace of
Redis `hset` writes it performs on `document:<doc_id>`, and the
exception it re-raises, if any (`none` means it returned normally).

Control flow from the source: write the processing mapping; write the
decode mapping and decode the payload, a failure writing the
decode-failure mapping and raising `ValueError`; dispatch on the parser
string — gemini wraps the backend in `except ValueError` (error mapping,
re-raise), pypdf wraps it in `except Exception` (error mapping,
re-raise), any other parser raises
`ValueError("Unsupported parser: ...")`; the outer `except Exception`
writes the error mapping once more and re-raises. -/
def process_document (env : Env) (parserArg : String) :
    List Mapping × Option Exn :=
  let pre := [processingInitMapping, decodeStepMapping]
  if env.decodeOk = false then
    let e : Exn := ⟨"Invalid content format in Redis", true⟩
    (pre ++ [decodeFailMapping, errorMapping e.msg], some e)
  else if parserArg = "gemini" then
    match process_with_gemini env with
    | (gtr, .ok (content, summary)) =>
        (pre ++ convertStepMapping :: gtr ++ [completedMapping content summary],
         none)
    | (gtr, .error e) =>
        if e.isVE then
          (pre ++ convertStepMapping :: gtr
               ++ [errorMapping e.msg, errorMapping e.msg], some e)
        else
          (pre ++ convertStepMapping :: gtr ++ [errorMapping e.msg], some e)
  else if parserArg = "pypdf" then
    match process_with_pypdf env with
    | .ok (content, summary) =>
        (pre ++ [pypdfStepMapping, completedMapping content summary], none)
    | .error e =>
        (pre ++ [pypdfStepMapping, errorMapping e.msg, errorMapping e.msg],
         some e)
  else
    let e : Exn := ⟨"Unsupported parser: " ++ parserArg, true⟩
    (pre ++ [errorMapping e.msg], some e)

/-- One iteration of the worker main loop for one claimed entry
(worker.py lines 202-222): run `process_document`; on normal return
`xack` the entry; if it raised, skip the `xack` (the code comment reads
"Do not acknowledge the message so it can be retried") and continue.
Returns the write trace and whether the entry was acknowledged. -/
def handleMessage (env : Env) (parserArg : String) : List Mapping × Bool :=
  match process_document env parserArg with
  | (tr, none) => (tr, true)
  | (tr, some _) => (tr, false)

/-! ## Concrete oracles for evaluating the model -/

/-- An oracle on which every external call succeeds. -/
def envAllOk : Env :=
  { decodeOk := true
    pypdfExtract := .ok "hello world"
    convert := .ok ["imgA", "imgB"]
    vision := fun _ => .ok "page text"
    generate := fun _ => .ok "a short summary" }

/-- An oracle whose pypdf extraction raises. -/
def envPypdfFail : Env :=
  { envAllOk with pypdfExtract := .error ⟨"backend boom", false⟩ }

/-- An oracle on which base64 decoding fails. -/
def envDecodeFail : Env :=
  { envAllOk with decodeOk := false }

/-! ## Basic record lemmas -/

theorem getField_setField (r : Mapping) (k k' v : String) :
    getField (setField r k v) k' =
      if k' = k then some v else getField r k' := by
  induction r with
  | nil =>
      by_cases h : k' = k
      · simp [setField, getField, h]
      · have h2 : ¬ k = k' := fun hh => h hh.symm
        simp [setField, getField, h, h2]
  | cons hd tl ih =>
      obtain ⟨k0, v0⟩ := hd
      by_cases h0 : k0 = k
      · subst h0
        by_cases h : k' = k0
        · subst h
          simp [setField, getField]
        · have h2 : ¬ k0 = k' := fun hh => h hh.symm
          simp [setField, getField, h, h2]
      · by_cases h : k' = k
        · subst h
          simp [setField, getField, h0, ih]
        · by_cases h1 : k0 = k'
          · subst h1
            simp [setField, getField, h0, h, ih]
          · simp [setField, getField, h0, h, h1, ih]

theorem applyWrite_nil (r : Mapping) : applyWrite r [] = r := rfl

theorem applyWrite_cons (r : Mapping) (k v : String) (w : Mapping) :
    applyWrite r ((k, v) :: w) = applyWrite (setField r k v) w := rfl

theorem applyWrites_append (r : Mapping) (t1 t2 : List Mapping) :
    applyWrites r (t1 ++ t2) = applyWrites (applyWrites r t1) t2 :=
  List.foldl_append applyWrite r t1 t2

theorem statesAfter_append (r : Mapping) (t1 t2 : List Mapping) :
    statesAfter r (t1 ++ t2)
      = statesAfter r t1 ++ statesAfter (applyWrites r t1) t2 := by
  induction t1 generalizing r with
  | nil => simp [statesAfter, applyWrites]
  | cons w tr ih =>
      simp [statesAfter, ih, applyWrites, List.foldl]

/-! ## Field-level facts about each write the worker performs -/

theorem getField_errorMapping (r : Mapping) (msg k : String) :
    getField (applyWrite r (errorMapping msg)) k =
      if k = "progress" then some ("Error: " ++ msg)
      else if k = "error" then some msg
      else if k = "status" then some "error"
      else getField r k := by
  simp [errorMapping, applyWrite, List.foldl, getField_setField]

theorem getField_decodeFailMapping (r : Mapping) (k : String) :
    getField (applyWrite r decodeFailMapping) k =
      if k = "progress" then some "Failed to decode PDF content"
      else if k = "error" then some "Invalid content format in Redis"
      else if k = "status" then some "error"
      else getField r k := by
  simp [decodeFailMapping, applyWrite, List.foldl, getField_setField]

theorem getField_completedMapping (r : Mapping) (c s k : String) :
    getField (applyWrite r (completedMapping c s)) k =
      if k = "current_step_number" then some "5"
      else if k = "current_step" then some "complete"
      else if k = "progress" then some "Processing completed successfully"
      else if k = "summary" then some s
      else if k = "content" then some c
      else if k = "status" then some "completed"
      else getField r k := by
  simp [completedMapping, applyWrite, List.foldl, getField_setField]

theorem getField_pageMapping (r : Mapping) (i total : Nat) (k : String) :
    getField (applyWrite r (pageMapping i total)) k =
      if k = "current_step_number" then some "3"
      else if k = "current_step" then some "process"
      else if k = "progress"
        then some ("Processing page " ++ toString i ++ "/" ++ toString total)
      else getField r k := by
  simp [pageMapping, applyWrite, List.foldl, getField_setField]

theorem getField_summaryMapping (r : Mapping) (k : String) :
    getField (applyWrite r summaryMapping) k =
      if k = "current_step_number" then some "4"
      else if k = "current_step" then some "summary"
      else if k = "progress" then some "Generating summary..."
      else getField r k := by
  simp [summaryMapping, applyWrite, List.foldl, getField_setField]

theorem getField_convertStepMapping (r : Mapping) (k : String) :
    getField (applyWrite r convertStepMapping) k =
      if k = "current_step_number" then some "2"
      else if k = "current_step" then some "convert"
      else if k = "progress" then some "Converting PDF to images..."
      else getField r k := by
  simp [convertStepMapping, applyWrite, List.foldl, getField_setField]

theorem getField_pypdfStepMapping (r : Mapping) (k : String) :
    getField (applyWrite r pypdfStepMapping) k =
      if k = "current_step_number" then some "2"
      else if k = "current_step" then some "process"
      else if k = "progress" then some "Processing with PyPDF..."
      else getField r k := by
  simp [pypdfStepMapping, applyWrite, List.foldl, getField_setField]

/-! ## Progress observations, for the monotonicity claim -/

/-- The `current_step_number` of a record, as a number.  The code stores
it as a decimal string and only ever writes the numerals 0 through 5
(`total_steps` is fixed at 5), so a lookup table decodes it. -/
def stepOf (r : Mapping) : Nat :=
  match (getField r "current_step_number").getD "0" with
  | "1" => 1
  | "2" => 2
  | "3" => 3
  | "4" => 4
  | "5" => 5
  | _ => 0

/-- Whether a record is in the `processing` state. -/
def isProcessing (r : Mapping) : Bool :=
  getField r "status" == some "processing"

/-- The `current_step_number` values carried by the writes of a trace,
restricted to the writes whose resulting record state is `processing`. -/
def procSteps (r : Mapping) (tr : List Mapping) : List Nat :=
  ((statesAfter r tr).filter isProcessing).map stepOf

theorem procSteps_append (r : Mapping) (t1 t2 : List Mapping) :
    procSteps r (t1 ++ t2)
      = procSteps r t1 ++ procSteps (applyWrites r t1) t2 := by
  simp [procSteps, statesAfter_append]

theorem procSteps_cons (r : Mapping) (w : Mapping) (tr : List Mapping) :
    procSteps r (w :: tr)
      = (if isProcessing (applyWrite r w) then [stepOf (applyWrite r w)] else [])
          ++ procSteps (applyWrite r w) tr := by
  simp only [procSteps, statesAfter, List.filter]
  by_cases h : isProcessing (applyWrite r w) <;> simp [h]

/-- A write whose mapping never touches a given field leaves that field
of the record unchanged. -/
theorem getField_applyWrite_of_not_key (r : Mapping) (w : Mapping) (k : String)
    (h : ∀ kv ∈ w, kv.1 ≠ k) :
    getField (applyWrite r w) k = getField r k := by
  induction w generalizing r with
  | nil => rfl
  | cons kv rest ih =>
      obtain ⟨k0, v0⟩ := kv
      have hk : k0 ≠ k := h (k0, v0) (List.mem_cons_self _ _)
      have hne : ¬ k = k0 := fun hh => hk hh.symm
      calc getField (applyWrite r ((k0, v0) :: rest)) k
          = getField (applyWrite (setField r k0 v0) rest) k := rfl
        _ = getField (setField r k0 v0) k :=
            ih (setField r k0 v0) (fun kv hm => h kv (List.mem_cons_of_mem _ hm))
        _ = getField r k := by rw [getField_setField]; simp [hne]

/-- Every write emitted by the page loop of `process_with_gemini` is a
`pageMapping`. -/
theorem geminiLoop_writes (env : Env) (total : Nat)
    (pages : List (Nat × String)) :
    ∀ w ∈ (geminiLoop env total pages).1, ∃ i, w = pageMapping i total := by
  induction pages with
  | nil => simp [geminiLoop]
  | cons p rest ih =>
      obtain ⟨i, img⟩ := p
      cases hv : env.vision img with
      | error e =>
          simp only [geminiLoop, hv]
          intro w hw
          rcases List.mem_cons.mp hw with h | h
          · exact ⟨i, h⟩
          · simp at h
      | ok t =>
          simp only [geminiLoop, hv]
          intro w hw
          rcases List.mem_cons.mp hw with h | h
          · exact ⟨i, h⟩
          · exact ih w h

/-- The page loop emits only `processing`-state writes with step number
3, and leaves the record in the `processing` state. -/
theorem geminiLoop_procSteps (env : Env) (total : Nat)
    (pages : List (Nat × String)) (r : Mapping)
    (h : getField r "status" = some "processing") :
    procSteps r (geminiLoop env total pages).1
        = List.replicate (geminiLoop env total pages).1.length 3 ∧
    getField (applyWrites r (geminiLoop env total pages).1) "status"
        = some "processing" := by
  induction pages generalizing r with
  | nil => simp [geminiLoop, procSteps, statesAfter, applyWrites, h]
  | cons p rest ih =>
      obtain ⟨i, img⟩ := p
      have hstat : getField (applyWrite r (pageMapping i total)) "status"
          = some "processing" := by
        rw [getField_pageMapping]; simp [h]
      have hproc : isProcessing (applyWrite r (pageMapping i total)) = true := by
        simp [isProcessing, hstat]
      have hstep : stepOf (applyWrite r (pageMapping i total)) = 3 := by
        simp [stepOf, getField_pageMapping]
      cases hv : env.vision img with
      | error e =>
          constructor
          · simp [geminiLoop, hv, procSteps_cons, hproc, hstep, procSteps,
                  statesAfter]
          · simp [geminiLoop, hv, applyWrites, List.foldl, hstat]
      | ok t =>
          have ihr := ih (applyWrite r (pageMapping i total)) hstat
          constructor
          · simp [geminiLoop, hv, procSteps_cons, hproc, hstep, ihr.1,
                  List.replicate_succ]
          · simp only [geminiLoop, hv]
            have : applyWrites r
                (pageMapping i total :: (geminiLoop env total rest).1)
                = applyWrites (applyWrite r (pageMapping i total))
                    (geminiLoop env total rest).1 := rfl
            simpa [this] using ihr.2

/-- Writes that never bind a field keep that field of every state of the
trace unchanged from the start record; in particular an absent field
stays absent. -/
theorem statesAfter_field_none (r : Mapping) (tr : List Mapping) (k : String)
    (hr : getField r k = none)
    (htr : ∀ w ∈ tr, ∀ kv ∈ w, kv.1 ≠ k) :
    ∀ s ∈ statesAfter r tr, getField s k = none := by
  induction tr generalizing r with
  | nil => simp [statesAfter]
  | cons w rest ih =>
      intro s hs
      have h1 : getField (applyWrite r w) k = none := by
        rw [getField_applyWrite_of_not_key r w k (htr w (List.mem_cons_self _ _))]
        exact hr
      simp only [statesAfter] at hs
      rcases List.mem_cons.mp hs with h | h
      · rw [h]; exact h1
      · exact ih (applyWrite r w) h1
          (fun w' hw' => htr w' (List.mem_cons_of_mem _ hw')) s h

/-- The page loop never touches the `error` or `total_steps` fields. -/
theorem geminiLoop_preserves (env : Env) (total : Nat)
    (pages : List (Nat × String)) (r : Mapping) (k : String)
    (hk : k = "error" ∨ k = "total_steps") :
    getField (applyWrites r (geminiLoop env total pages).1) k
      = getField r k := by
  induction pages generalizing r with
  | nil => simp [geminiLoop, applyWrites]
  | cons p rest ih =>
      obtain ⟨i, img⟩ := p
      have hpage : ∀ r' : Mapping,
          getField (applyWrite r' (pageMapping i total)) k = getField r' k := by
        intro r'
        rw [getField_pageMapping]
        rcases hk with h | h <;> simp [h]
      cases hv : env.vision img with
      | error e => simp [geminiLoop, hv, applyWrites, List.foldl, hpage]
      | ok t =>
          have : applyWrites r
              (pageMapping i total :: (geminiLoop env total rest).1)
              = applyWrites (applyWrite r (pageMapping i total))
                  (geminiLoop env total rest).1 := rfl
          simp [geminiLoop, hv, this, ih, hpage]

/-! ## Claim theorems -/

/-- Claim C1 (refuted as stated; the spec describes the intended order).
Evaluating `upload_file` on a valid submission shows the code appends
the Job Entry to the work queue (`xadd`) BEFORE writing the queued
Status Record (`hset`): the effect trace is read, then append, then
status write.  The spec requires the status write first, so that a
worker can never act on a document whose record does not yet exist. -/
theorem upload_appends_entry_before_status_write :
    upload_file "a.pdf" pdfMagic "pypdf" "d"
      = ([UploadEffect.readFile, UploadEffect.xadd "d" pdfMagic "pypdf",
          UploadEffect.hsetStatus "d" initialStatusMapping],
         Except.ok ("File uploaded successfully", "d")) :=
  rfl

/-- Claim C5 (the validation effects hold, the response class does not).
On a submission whose payload is empty (hence lacks the PDF header) the
handler raises the 400 validation `HTTPException`, but the trailing
blanket `except Exception` clause re-raises it as HTTP 500; no Job
Entry is appended and no Status Record is written. -/
theorem upload_empty_payload_no_entry_no_record :
    upload_file "a.pdf" [] "pypdf" "d"
      = ([UploadEffect.readFile],
         Except.error
           ⟨500, "400: Invalid PDF file: File does not start with PDF header"⟩) :=
  rfl

/-- Claim C9: a status query for a `document_id` with no Status Record
(`hgetall` returns the empty hash) fails with a 404 not-found error and
returns no default record. -/
theorem status_query_unknown_id_not_found (store : String → Mapping)
    (docId : String) (h : store docId = []) :
    get_status_endpoint store docId
      = Except.error ⟨404, "Document not found"⟩ := by
  simp [get_status_endpoint, get_status, h]

/-- Witness: the not-found theorem applied to a concrete empty store. -/
theorem status_query_unknown_id_not_found_witness :
    get_status_endpoint (fun _ => []) "missing"
      = Except.error ⟨404, "Document not found"⟩ :=
  status_query_unknown_id_not_found (fun _ => []) "missing" rfl

/-- Claim C10: an upload whose filename does not end in `.pdf` is
rejected with no effects at all — the bytes are never read (no
`readFile` effect), never header-checked, and nothing is queued or
recorded — for every payload, including a well-formed PDF one. -/
theorem upload_rejects_bad_filename (filename : String) (content : List Nat)
    (parserArg docId : String) (h : strEndsWith filename ".pdf" = false) :
    upload_file filename content parserArg docId
      = ([], Except.error ⟨500, "400: Only PDF files are allowed"⟩) := by
  unfold upload_file
  rw [h]
  rfl

/-- Witness: a `.txt` filename carrying well-formed PDF bytes is
rejected before the payload is read. -/
theorem upload_rejects_bad_filename_witness :
    upload_file "doc.txt" pdfMagic "pypdf" "d"
      = ([], Except.error ⟨500, "400: Only PDF files are allowed"⟩) :=
  upload_rejects_bad_filename "doc.txt" pdfMagic "pypdf" "d" (by decide)

/-- Claim C2 is refuted on the acknowledgment half: for the unsupported
mode string, `process_document` re-raises after writing the error
record, so the main loop skips the `xack` and the entry stays pending
for redelivery. -/
theorem unsupported_mode_acked_counterexample :
    "unknown-mode" ≠ "pypdf" ∧ "unknown-mode" ≠ "gemini" ∧
    (handleMessage envAllOk "unknown-mode").2 = false :=
  ⟨by decide, by decide, rfl⟩

/-- Claim C2 as amended: an entry with an unsupported processing mode
ends with the Status Record in `error` with a message identifying the
mode, but the worker does NOT acknowledge it — the entry remains
pending for redelivery. -/
theorem unsupported_mode_error_unacked (env : Env) (p : String)
    (hd : env.decodeOk = true) (h1 : p ≠ "gemini") (h2 : p ≠ "pypdf") :
    (handleMessage env p).2 = false ∧
    getField (applyWrites initialStatusMapping (handleMessage env p).1)
        "status" = some "error" ∧
    getField (applyWrites initialStatusMapping (handleMessage env p).1)
        "error" = some ("Unsupported parser: " ++ p) := by
  have htr : process_document env p
      = ([processingInitMapping, decodeStepMapping,
          errorMapping ("Unsupported parser: " ++ p)],
         some ⟨"Unsupported parser: " ++ p, true⟩) := by
    simp [process_document, hd, h1, h2]
  refine ⟨?_, ?_, ?_⟩ <;>
    simp [handleMessage, htr, applyWrites, List.foldl, getField_errorMapping]

/-- Witness: the amended C2 theorem at a concrete oracle and mode. -/
theorem unsupported_mode_error_unacked_witness :
    (handleMessage envAllOk "unknown-mode").2 = false ∧
    getField (applyWrites initialStatusMapping
        (handleMessage envAllOk "unknown-mode").1) "status" = some "error" ∧
    getField (applyWrites initialStatusMapping
        (handleMessage envAllOk "unknown-mode").1) "error"
      = some ("Unsupported parser: " ++ "unknown-mode") :=
  unsupported_mode_error_unacked envAllOk "unknown-mode" rfl
    (by decide) (by decide)

/-- Claim C3 is refuted on the acknowledgment half: when the pypdf
backend raises, the worker writes the error record and re-raises, so
the entry is not acknowledged. -/
theorem backend_failure_acked_counterexample :
    process_with_pypdf envPypdfFail = Except.error ⟨"backend boom", false⟩ ∧
    (handleMessage envPypdfFail "pypdf").2 = false :=
  ⟨rfl, rfl⟩

/-- Claim C3 as amended: when the Processing Backend raises, the Status
Record ends in `error` carrying the backend message, but the entry is
NOT acknowledged — it remains pending for redelivery. -/
theorem backend_failure_error_unacked (env : Env) (p : String) (e : Exn)
    (hd : env.decodeOk = true)
    (hb : (p = "pypdf" ∧ process_with_pypdf env = Except.error e) ∨
          (p = "gemini" ∧ (process_with_gemini env).2 = Except.error e)) :
    (handleMessage env p).2 = false ∧
    getField (applyWrites initialStatusMapping (handleMessage env p).1)
        "status" = some "error" ∧
    getField (applyWrites initialStatusMapping (handleMessage env p).1)
        "error" = some e.msg := by
  rcases hb with ⟨hp, hres⟩ | ⟨hp, hres⟩
  · subst hp
    have htr : process_document env "pypdf"
        = ([processingInitMapping, decodeStepMapping, pypdfStepMapping,
            errorMapping e.msg, errorMapping e.msg], some e) := by
      simp [process_document, hd, hres]
    refine ⟨?_, ?_, ?_⟩ <;>
      simp [handleMessage, htr, applyWrites, List.foldl, getField_errorMapping]
  · subst hp
    cases hpg : process_with_gemini env with
    | mk gtr res =>
        rw [hpg] at hres
        simp only at hres
        subst hres
        cases he : e.isVE with
        | true =>
            have htr : process_document env "gemini"
                = (([processingInitMapping, decodeStepMapping,
                     convertStepMapping] ++ gtr)
                     ++ [errorMapping e.msg, errorMapping e.msg], some e) := by
              simp [process_document, hd, hpg, he]
            refine ⟨?_, ?_, ?_⟩ <;>
              simp [handleMessage, htr, applyWrites_append, applyWrites,
                    List.foldl, getField_errorMapping]
        | false =>
            have htr : process_document env "gemini"
                = (([processingInitMapping, decodeStepMapping,
                     convertStepMapping] ++ gtr)
                     ++ [errorMapping e.msg], some e) := by
              simp [process_document, hd, hpg, he]
            refine ⟨?_, ?_, ?_⟩ <;>
              simp [handleMessage, htr, applyWrites_append, applyWrites,
                    List.foldl, getField_errorMapping]

/-- Witness: the amended C3 theorem at a concrete failing backend. -/
theorem backend_failure_error_unacked_witness :
    (handleMessage envPypdfFail "pypdf").2 = false ∧
    getField (applyWrites initialStatusMapping
        (handleMessage envPypdfFail "pypdf").1) "status" = some "error" ∧
    getField (applyWrites initialStatusMapping
        (handleMessage envPypdfFail "pypdf").1) "error"
      = some (Exn.mk "backend boom" false).msg :=
  backend_failure_error_unacked envPypdfFail "pypdf" ⟨"backend boom", false⟩
    rfl (Or.inl ⟨rfl, rfl⟩)

/-- Claim C4 is refuted on both halves: on a payload that fails its
base64 decode the error message written is
"Invalid content format in Redis", not "invalid payload encoding", and
the raised `ValueError` makes the main loop skip the `xack`. -/
theorem decode_failure_message_counterexample :
    getField (applyWrites initialStatusMapping
        (handleMessage envDecodeFail "pypdf").1) "error"
      = some "Invalid content format in Redis" ∧
    ("Invalid content format in Redis" : String) ≠ "invalid payload encoding" ∧
    (handleMessage envDecodeFail "pypdf").2 = false :=
  ⟨rfl, by decide, rfl⟩

/-- Claim C4 as amended: a payload whose base64 decode fails ends with
the Status Record in `error` with
`error = "Invalid content format in Redis"`, and the entry is NOT
acknowledged — it remains pending for redelivery. -/
theorem decode_failure_error_unacked (env : Env) (p : String)
    (hd : env.decodeOk = false) :
    handleMessage env p
      = ([processingInitMapping, decodeStepMapping, decodeFailMapping,
          errorMapping "Invalid content format in Redis"], false) ∧
    getField (applyWrites initialStatusMapping (handleMessage env p).1)
        "status" = some "error" ∧
    getField (applyWrites initialStatusMapping (handleMessage env p).1)
        "error" = some "Invalid content format in Redis" := by
  have htr : process_document env p
      = ([processingInitMapping, decodeStepMapping, decodeFailMapping,
          errorMapping "Invalid content format in Redis"],
         some ⟨"Invalid content format in Redis", true⟩) := by
    simp [process_document, hd]
  refine ⟨?_, ?_, ?_⟩ <;>
    simp [handleMessage, htr, applyWrites, List.foldl, getField_errorMapping]

/-- Claim C6: when the Processing Backend call succeeds the worker
acknowledges the entry, and its final Redis write is the single
`completedMapping`, which carries `status = completed`, `content` and
`summary` together in one mapping; the resulting record has
`current_step_number = "5"` equal to its `total_steps` field. -/
theorem backend_success_completed_single_write (env : Env) (p : String)
    (hd : env.decodeOk = true)
    (hb : (p = "pypdf" ∧ ∃ c s, process_with_pypdf env = Except.ok (c, s)) ∨
          (p = "gemini" ∧
            ∃ c s, (process_with_gemini env).2 = Except.ok (c, s))) :
    ∃ c s,
      (handleMessage env p).2 = true ∧
      (handleMessage env p).1.getLast? = some (completedMapping c s) ∧
      getField (applyWrites initialStatusMapping (handleMessage env p).1)
          "status" = some "completed" ∧
      getField (applyWrites initialStatusMapping (handleMessage env p).1)
          "content" = some c ∧
      getField (applyWrites initialStatusMapping (handleMessage env p).1)
          "summary" = some s ∧
      getField (applyWrites initialStatusMapping (handleMessage env p).1)
          "current_step_number" = some "5" ∧
      getField (applyWrites initialStatusMapping (handleMessage env p).1)
          "total_steps" = some "5" := by
  rcases hb with ⟨hp, c, s, hres⟩ | ⟨hp, c, s, hres⟩
  · subst hp
    refine ⟨c, s, ?_⟩
    have htr : process_document env "pypdf"
        = ([processingInitMapping, decodeStepMapping, pypdfStepMapping]
            ++ [completedMapping c s], none) := by
      simp [process_document, hd, hres]
    refine ⟨?_, ?_, ?_, ?_, ?_, ?_, ?_⟩ <;>
      simp [handleMessage, htr, applyWrites_append, applyWrites, applyWrite,
            List.foldl, getField_setField, processingInitMapping,
            decodeStepMapping, pypdfStepMapping, completedMapping,
            initialStatusMapping]
  · subst hp
    cases hconv : env.convert with
    | error e => simp [process_with_gemini, hconv] at hres
    | ok images =>
      cases hloop : geminiLoop env images.length (images.enumFrom 1) with
      | mk ltr lres =>
        cases lres with
        | error e => simp [process_with_gemini, hconv, hloop] at hres
        | ok texts =>
          cases hgen :
              env.generate (summaryPrompt (String.intercalate "\n\n" texts)) with
          | error e => simp [process_with_gemini, hconv, hloop, hgen] at hres
          | ok smm =>
            have hpg : process_with_gemini env
                = (ltr ++ [summaryMapping],
                   Except.ok ("\n\n" ++ String.intercalate "\n\n" texts
                     ++ "\n\n---\n*This content was extracted using Google Gemini Vision API and formatted in markdown.*",
                     smm)) := by
              simp [process_with_gemini, hconv, hloop, hgen]
            rw [hpg] at hres
            simp only [Except.ok.injEq, Prod.mk.injEq] at hres
            obtain ⟨hc, hs⟩ := hres
            subst hc
            subst hs
            refine ⟨"\n\n" ++ String.intercalate "\n\n" texts
              ++ "\n\n---\n*This content was extracted using Google Gemini Vision API and formatted in markdown.*",
              smm, ?_⟩
            have htr : process_document env "gemini"
                = ((([processingInitMapping, decodeStepMapping,
                      convertStepMapping] ++ ltr) ++ [summaryMapping])
                    ++ [completedMapping
                          ("\n\n" ++ String.intercalate "\n\n" texts
                            ++ "\n\n---\n*This content was extracted using Google Gemini Vision API and formatted in markdown.*")
                          smm], none) := by
              simp [process_document, hd, hpg]
            have hpres : getField (applyWrites (applyWrites initialStatusMapping
                  [processingInitMapping, decodeStepMapping, convertStepMapping])
                  ltr) "total_steps"
                = getField (applyWrites initialStatusMapping
                    [processingInitMapping, decodeStepMapping,
                     convertStepMapping]) "total_steps" := by
              have h := geminiLoop_preserves env images.length
                (images.enumFrom 1)
                (applyWrites initialStatusMapping
                  [processingInitMapping, decodeStepMapping, convertStepMapping])
                "total_steps" (Or.inr rfl)
              rw [hloop] at h
              simpa using h
            have hack : (handleMessage env "gemini").2 = true := by
              simp [handleMessage, htr]
            have htrace : (handleMessage env "gemini").1
                = ((([processingInitMapping, decodeStepMapping,
                      convertStepMapping] ++ ltr) ++ [summaryMapping])
                    ++ [completedMapping
                          ("\n\n" ++ String.intercalate "\n\n" texts
                            ++ "\n\n---\n*This content was extracted using Google Gemini Vision API and formatted in markdown.*")
                          smm]) := by
              simp [handleMessage, htr]
            have hlast : (handleMessage env "gemini").1.getLast?
                = some (completedMapping
                    ("\n\n" ++ String.intercalate "\n\n" texts
                      ++ "\n\n---\n*This content was extracted using Google Gemini Vision API and formatted in markdown.*")
                    smm) := by
              rw [htrace]
              exact List.getLast?_concat _
            have happly : applyWrites initialStatusMapping
                  (handleMessage env "gemini").1
                = applyWrite (applyWrite (applyWrites (applyWrites
                    initialStatusMapping
                    [processingInitMapping, decodeStepMapping,
                     convertStepMapping]) ltr) summaryMapping)
                    (completedMapping
                      ("\n\n" ++ String.intercalate "\n\n" texts
                        ++ "\n\n---\n*This content was extracted using Google Gemini Vision API and formatted in markdown.*")
                      smm) := by
              rw [htrace, applyWrites_append, applyWrites_append,
                  applyWrites_append]
              rfl
            refine ⟨hack, hlast, ?_, ?_, ?_, ?_, ?_⟩ <;>
              rw [happly, getField_completedMapping]
            · simp
            · simp
            · simp
            · simp
            · have hsum : getField (applyWrite (applyWrites (applyWrites
                  initialStatusMapping
                  [processingInitMapping, decodeStepMapping,
                   convertStepMapping]) ltr) summaryMapping) "total_steps"
                  = some "5" := by
                rw [getField_summaryMapping]
                simp only [hpres]
                rfl
              simp [hsum]

/-- Witness: the completion theorem at a concrete all-success oracle on
the pypdf path. -/
theorem backend_success_completed_single_write_witness :
    ∃ c s,
      (handleMessage envAllOk "pypdf").2 = true ∧
      (handleMessage envAllOk "pypdf").1.getLast?
        = some (completedMapping c s) ∧
      getField (applyWrites initialStatusMapping
          (handleMessage envAllOk "pypdf").1) "status" = some "completed" ∧
      getField (applyWrites initialStatusMapping
          (handleMessage envAllOk "pypdf").1) "content" = some c ∧
      getField (applyWrites initialStatusMapping
          (handleMessage envAllOk "pypdf").1) "summary" = some s ∧
      getField (applyWrites initialStatusMapping
          (handleMessage envAllOk "pypdf").1) "current_step_number"
        = some "5" ∧
      getField (applyWrites initialStatusMapping
          (handleMessage envAllOk "pypdf").1) "total_steps" = some "5" :=
  backend_success_completed_single_write envAllOk "pypdf" rfl
    (Or.inl ⟨rfl,
      ⟨"\n\nhello world\n\n---\n*This content was extracted using PyPDF and formatted in markdown.*",
       "a short summary", rfl⟩⟩)

/-- Every state reached while applying a tail made only of
`decodeFailMapping` and `errorMapping` writes is in the `error` state,
whatever the starting record. -/
theorem statesAfter_error_tail (r : Mapping) (tail : List Mapping)
    (h : ∀ w ∈ tail, w = decodeFailMapping ∨ ∃ m, w = errorMapping m) :
    ∀ s ∈ statesAfter r tail, getField s "status" = some "error" := by
  induction tail generalizing r with
  | nil => simp [statesAfter]
  | cons w rest ih =>
      intro s hs
      have hw := h w (List.mem_cons_self _ _)
      have hstat : getField (applyWrite r w) "status" = some "error" := by
        rcases hw with hw | ⟨m, hw⟩ <;> subst hw
        · rw [getField_decodeFailMapping]; rfl
        · rw [getField_errorMapping]; rfl
      simp only [statesAfter] at hs
      rcases List.mem_cons.mp hs with hcase | hcase
      · rw [hcase]; exact hstat
      · exact ih (applyWrite r w)
          (fun w' hw' => h w' (List.mem_cons_of_mem _ hw')) s hcase

/-- None of the progress or completion writes binds the `error` field. -/
theorem no_error_key_writes (c s : String) (i total : Nat) :
    (∀ kv ∈ processingInitMapping, kv.1 ≠ "error") ∧
    (∀ kv ∈ decodeStepMapping, kv.1 ≠ "error") ∧
    (∀ kv ∈ convertStepMapping, kv.1 ≠ "error") ∧
    (∀ kv ∈ pypdfStepMapping, kv.1 ≠ "error") ∧
    (∀ kv ∈ summaryMapping, kv.1 ≠ "error") ∧
    (∀ kv ∈ completedMapping c s, kv.1 ≠ "error") ∧
    (∀ kv ∈ pageMapping i total, kv.1 ≠ "error") := by
  refine ⟨?_, ?_, ?_, ?_, ?_, ?_, ?_⟩ <;>
    · intro kv hm
      simp [processingInitMapping, decodeStepMapping, convertStepMapping,
            pypdfStepMapping, summaryMapping, completedMapping,
            pageMapping] at hm
      repeat' rcases hm with hm | hm
      all_goals (show ¬ _ = _; simp)

theorem procSteps_nil (r : Mapping) : procSteps r [] = [] := rfl

theorem procSteps_error_cons (r : Mapping) (m : String) (tr : List Mapping) :
    procSteps r (errorMapping m :: tr)
      = procSteps (applyWrite r (errorMapping m)) tr := by
  rw [procSteps_cons]
  have h : isProcessing (applyWrite r (errorMapping m)) = false := by
    simp [isProcessing, getField_errorMapping]
  simp [h]

theorem procSteps_completed_cons (r : Mapping) (c s : String)
    (tr : List Mapping) :
    procSteps r (completedMapping c s :: tr)
      = procSteps (applyWrite r (completedMapping c s)) tr := by
  rw [procSteps_cons]
  have h : isProcessing (applyWrite r (completedMapping c s)) = false := by
    simp [isProcessing, getField_completedMapping]
  simp [h]

theorem procSteps_summary_cons (r : Mapping) (tr : List Mapping)
    (h : getField r "status" = some "processing") :
    procSteps r (summaryMapping :: tr)
      = 4 :: procSteps (applyWrite r summaryMapping) tr := by
  rw [procSteps_cons]
  have h1 : isProcessing (applyWrite r summaryMapping) = true := by
    simp [isProcessing, getField_summaryMapping, h]
  have h2 : stepOf (applyWrite r summaryMapping) = 4 := by
    simp [stepOf, getField_summaryMapping]
  simp [h1, h2]

theorem chain_le_01 : List.Chain' (· ≤ ·) ([0, 1] : List Nat) := by
  rw [List.chain'_iff_pairwise]
  simp

theorem chain_le_012 : List.Chain' (· ≤ ·) ([0, 1, 2] : List Nat) := by
  rw [List.chain'_iff_pairwise]
  simp

theorem chain_le_steps_rep (k : Nat) :
    List.Chain' (· ≤ ·) ([0, 1, 2] ++ List.replicate k 3) := by
  rw [List.chain'_iff_pairwise]
  simp [List.pairwise_append, List.mem_replicate]

theorem chain_le_steps_rep4 (k : Nat) :
    List.Chain' (· ≤ ·) ([0, 1, 2] ++ (List.replicate k 3 ++ [4])) := by
  rw [List.chain'_iff_pairwise]
  simp [List.pairwise_append, List.mem_replicate]
  constructor
  · intro a h
    omega
  · intro a h
    omega

/-- Concatenation of two error-free write lists is error-free. -/
theorem noerr_append (t1 t2 : List Mapping)
    (h1 : ∀ w ∈ t1, ∀ kv ∈ w, kv.1 ≠ "error")
    (h2 : ∀ w ∈ t2, ∀ kv ∈ w, kv.1 ≠ "error") :
    ∀ w ∈ t1 ++ t2, ∀ kv ∈ w, kv.1 ≠ "error" := by
  intro w hw
  rcases List.mem_append.mp hw with h | h
  · exact h1 w h
  · exact h2 w h

/-- The gemini page loop never writes the `error` field. -/
theorem noerr_geminiLoop (env : Env) (total : Nat)
    (pages : List (Nat × String)) :
    ∀ w ∈ (geminiLoop env total pages).1, ∀ kv ∈ w, kv.1 ≠ "error" := by
  intro w hw
  obtain ⟨i, rfl⟩ := geminiLoop_writes env total pages w hw
  exact (no_error_key_writes "" "" i total).2.2.2.2.2.2

/-- The three fixed progress writes shared by the worker paths never
write the `error` field. -/
theorem noerr_pre3 :
    ∀ w ∈ [processingInitMapping, decodeStepMapping, convertStepMapping],
      ∀ kv ∈ w, kv.1 ≠ "error" := by
  intro w hw
  simp at hw
  rcases hw with h | h | h <;> subst h
  · exact (no_error_key_writes "" "" 0 0).1
  · exact (no_error_key_writes "" "" 0 0).2.1
  · exact (no_error_key_writes "" "" 0 0).2.2.1

/-- Claim C7 is refuted: the worker never clears the `error` field, so
after a failed delivery followed by a successful redelivery of the same
document the Status Record ends with `state = completed` while still
carrying the stale backend error message. -/
theorem stale_error_field_counterexample :
    getField (applyWrites initialStatusMapping
        ((handleMessage envPypdfFail "pypdf").1
          ++ (handleMessage envAllOk "pypdf").1)) "status"
      = some "completed" ∧
    getField (applyWrites initialStatusMapping
        ((handleMessage envPypdfFail "pypdf").1
          ++ (handleMessage envAllOk "pypdf").1)) "error"
      = some "backend boom" :=
  ⟨rfl, rfl⟩

/-- Claim C7 as amended: within a single delivery started from the
freshly-initialized Status Record (which has no `error` field), every
record state with a populated `error` field is in the `error` state —
the field is only ever written together with `status = "error"`.  It is
never cleared afterwards, so the absence claim fails across
redeliveries. -/
theorem error_field_only_with_error_state (env : Env) (p : String) :
    ∀ s ∈ statesAfter initialStatusMapping (process_document env p).1,
      (getField s "error").isSome = true
        → getField s "status" = some "error" := by
  have key : ∀ clean tail : List Mapping,
      (∀ w ∈ clean, ∀ kv ∈ w, kv.1 ≠ "error") →
      (∀ w ∈ tail, w = decodeFailMapping ∨ ∃ m, w = errorMapping m) →
      ∀ s ∈ statesAfter initialStatusMapping (clean ++ tail),
        (getField s "error").isSome = true
          → getField s "status" = some "error" := by
    intro clean tail hclean htail s hs herr
    rw [statesAfter_append] at hs
    rcases List.mem_append.mp hs with h | h
    · have hnone := statesAfter_field_none initialStatusMapping clean "error"
        rfl hclean s h
      rw [hnone] at herr
      simp at herr
    · exact statesAfter_error_tail _ tail htail s h
  by_cases hd : env.decodeOk = false
  · have htr : (process_document env p).1
        = [processingInitMapping, decodeStepMapping]
          ++ [decodeFailMapping,
              errorMapping "Invalid content format in Redis"] := by
      simp [process_document, hd]
    rw [htr]
    refine key _ _ ?_ ?_
    · intro w hw
      simp at hw
      rcases hw with h | h <;> subst h
      · exact (no_error_key_writes "" "" 0 0).1
      · exact (no_error_key_writes "" "" 0 0).2.1
    · intro w hw
      simp at hw
      rcases hw with h | h <;> subst h
      · exact Or.inl rfl
      · exact Or.inr ⟨_, rfl⟩
  · have hd' : env.decodeOk = true := by
      cases h : env.decodeOk
      · exact absurd h hd
      · rfl
    by_cases hg : p = "gemini"
    · subst hg
      cases hconv : env.convert with
      | error e =>
          have hpg : process_with_gemini env = ([], Except.error e) := by
            simp [process_with_gemini, hconv]
          cases he : e.isVE with
          | true =>
              have htr : (process_document env "gemini").1
                  = [processingInitMapping, decodeStepMapping,
                     convertStepMapping]
                    ++ [errorMapping e.msg, errorMapping e.msg] := by
                simp [process_document, hd', hpg, he]
              rw [htr]
              refine key _ _ noerr_pre3 ?_
              intro w hw
              simp at hw
              subst hw
              exact Or.inr ⟨_, rfl⟩
          | false =>
              have htr : (process_document env "gemini").1
                  = [processingInitMapping, decodeStepMapping,
                     convertStepMapping]
                    ++ [errorMapping e.msg] := by
                simp [process_document, hd', hpg, he]
              rw [htr]
              refine key _ _ noerr_pre3 ?_
              intro w hw
              simp at hw
              subst hw
              exact Or.inr ⟨_, rfl⟩
      | ok images =>
        cases hloop : geminiLoop env images.length (images.enumFrom 1) with
        | mk ltr lres =>
          have hltr : ∀ w ∈ ltr, ∀ kv ∈ w, kv.1 ≠ "error" := by
            have h := noerr_geminiLoop env images.length (images.enumFrom 1)
            rw [hloop] at h
            exact h
          cases lres with
          | error e =>
              have hpg : process_with_gemini env = (ltr, Except.error e) := by
                simp [process_with_gemini, hconv, hloop]
              cases he : e.isVE with
              | true =>
                  have htr : (process_document env "gemini").1
                      = ([processingInitMapping, decodeStepMapping,
                          convertStepMapping] ++ ltr)
                        ++ [errorMapping e.msg, errorMapping e.msg] := by
                    simp [process_document, hd', hpg, he]
                  rw [htr]
                  refine key _ _ (noerr_append _ _ noerr_pre3 hltr) ?_
                  intro w hw
                  simp at hw
                  subst hw
                  exact Or.inr ⟨_, rfl⟩
              | false =>
                  have htr : (process_document env "gemini").1
                      = ([processingInitMapping, decodeStepMapping,
                          convertStepMapping] ++ ltr)
                        ++ [errorMapping e.msg] := by
                    simp [process_document, hd', hpg, he]
                  rw [htr]
                  refine key _ _ (noerr_append _ _ noerr_pre3 hltr) ?_
                  intro w hw
                  simp at hw
                  subst hw
                  exact Or.inr ⟨_, rfl⟩
          | ok texts =>
            have hsum1 : ∀ w ∈ [summaryMapping], ∀ kv ∈ w, kv.1 ≠ "error" := by
              intro w hw
              simp at hw
              subst hw
              exact (no_error_key_writes "" "" 0 0).2.2.2.2.1
            cases hgen :
                env.generate (summaryPrompt (String.intercalate "\n\n" texts))
                with
            | error e =>
                have hpg : process_with_gemini env
                    = (ltr ++ [summaryMapping], Except.error e) := by
                  simp [process_with_gemini, hconv, hloop, hgen]
                cases he : e.isVE with
                | true =>
                    have htr : (process_document env "gemini").1
                        = (([processingInitMapping, decodeStepMapping,
                             convertStepMapping] ++ ltr) ++ [summaryMapping])
                          ++ [errorMapping e.msg, errorMapping e.msg] := by
                      simp [process_document, hd', hpg, he]
                    rw [htr]
                    refine key _ _ (noerr_append _ _
                      (noerr_append _ _ noerr_pre3 hltr) hsum1) ?_
                    intro w hw
                    simp at hw
                    subst hw
                    exact Or.inr ⟨_, rfl⟩
                | false =>
                    have htr : (process_document env "gemini").1
                        = (([processingInitMapping, decodeStepMapping,
                             convertStepMapping] ++ ltr) ++ [summaryMapping])
                          ++ [errorMapping e.msg] := by
                      simp [process_document, hd', hpg, he]
                    rw [htr]
                    refine key _ _ (noerr_append _ _
                      (noerr_append _ _ noerr_pre3 hltr) hsum1) ?_
                    intro w hw
                    simp at hw
                    subst hw
                    exact Or.inr ⟨_, rfl⟩
            | ok smm =>
                have hpg : process_with_gemini env
                    = (ltr ++ [summaryMapping],
                       Except.ok ("\n\n" ++ String.intercalate "\n\n" texts
                         ++ "\n\n---\n*This content was extracted using Google Gemini Vision API and formatted in markdown.*",
                         smm)) := by
                  simp [process_with_gemini, hconv, hloop, hgen]
                have htr : (process_document env "gemini").1
                    = (([processingInitMapping, decodeStepMapping,
                         convertStepMapping] ++ ltr) ++ [summaryMapping])
                      ++ [completedMapping
                            ("\n\n" ++ String.intercalate "\n\n" texts
                              ++ "\n\n---\n*This content was extracted using Google Gemini Vision API and formatted in markdown.*")
                            smm] := by
                  simp [process_document, hd', hpg]
                rw [htr]
                intro s hs herr
                have hnone := statesAfter_field_none initialStatusMapping _
                  "error" rfl
                  (noerr_append _ _
                    (noerr_append _ _ (noerr_append _ _ noerr_pre3 hltr) hsum1)
                    (by
                      intro w hw
                      simp at hw
                      subst hw
                      exact (no_error_key_writes _ _ 0 0).2.2.2.2.2.1))
                  s hs
                rw [hnone] at herr
                simp at herr
    · by_cases hp : p = "pypdf"
      · subst hp
        cases hres : process_with_pypdf env with
        | ok cs =>
            obtain ⟨c, s0⟩ := cs
            have htr : (process_document env "pypdf").1
                = [processingInitMapping, decodeStepMapping, pypdfStepMapping]
                  ++ [completedMapping c s0] := by
              simp [process_document, hd', hres]
            rw [htr]
            intro s hs herr
            have hnone := statesAfter_field_none initialStatusMapping _
              "error" rfl
              (noerr_append _ _
                (by
                  intro w hw
                  simp at hw
                  rcases hw with h | h | h <;> subst h
                  · exact (no_error_key_writes "" "" 0 0).1
                  · exact (no_error_key_writes "" "" 0 0).2.1
                  · exact (no_error_key_writes "" "" 0 0).2.2.2.1)
                (by
                  intro w hw
                  simp at hw
                  subst hw
                  exact (no_error_key_writes c s0 0 0).2.2.2.2.2.1))
              s hs
            rw [hnone] at herr
            simp at herr
        | error e =>
            have htr : (process_document env "pypdf").1
                = [processingInitMapping, decodeStepMapping, pypdfStepMapping]
                  ++ [errorMapping e.msg, errorMapping e.msg] := by
              simp [process_document, hd', hres]
            rw [htr]
            refine key _ _ ?_ ?_
            · intro w hw
              simp at hw
              rcases hw with h | h | h <;> subst h
              · exact (no_error_key_writes "" "" 0 0).1
              · exact (no_error_key_writes "" "" 0 0).2.1
              · exact (no_error_key_writes "" "" 0 0).2.2.2.1
            · intro w hw
              simp at hw
              subst hw
              exact Or.inr ⟨_, rfl⟩
      · have htr : (process_document env p).1
            = [processingInitMapping, decodeStepMapping]
              ++ [errorMapping ("Unsupported parser: " ++ p)] := by
          simp [process_document, hd', hg, hp]
        rw [htr]
        refine key _ _ ?_ ?_
        · intro w hw
          simp at hw
          rcases hw with h | h <;> subst h
          · exact (no_error_key_writes "" "" 0 0).1
          · exact (no_error_key_writes "" "" 0 0).2.1
        · intro w hw
          simp at hw
          subst hw
          exact Or.inr ⟨_, rfl⟩

/-- Witness: the single-delivery error-state theorem evaluated on a
failing decode; the state reached after the decode-failure write has
its `error` field populated and is in the `error` state. -/
theorem error_field_only_with_error_state_witness :
    (applyWrites initialStatusMapping
        [processingInitMapping, decodeStepMapping, decodeFailMapping])
      ∈ statesAfter initialStatusMapping
          (process_document envDecodeFail "pypdf").1 ∧
    (getField (applyWrites initialStatusMapping
        [processingInitMapping, decodeStepMapping, decodeFailMapping])
        "error").isSome = true ∧
    getField (applyWrites initialStatusMapping
        [processingInitMapping, decodeStepMapping, decodeFailMapping])
        "status" = some "error" :=
  ⟨by decide, by decide,
   error_field_only_with_error_state envDecodeFail "pypdf"
     (applyWrites initialStatusMapping
       [processingInitMapping, decodeStepMapping, decodeFailMapping])
     (by decide) (by decide)⟩

/-- Claim C8: over a single delivery of an entry, the
`current_step_number` values of the status writes whose resulting state
is `processing` form a monotonically non-decreasing sequence, for every
oracle outcome and every parser string. -/
theorem processing_step_monotone (env : Env) (p : String) :
    List.Chain' (· ≤ ·)
      (procSteps initialStatusMapping (process_document env p).1) := by
  have herr1 : ∀ (r : Mapping) (m : String),
      procSteps r [errorMapping m] = [] := by
    intro r m
    rw [procSteps_error_cons]
    rfl
  have herr2 : ∀ (r : Mapping) (m : String),
      procSteps r [errorMapping m, errorMapping m] = [] := by
    intro r m
    rw [procSteps_error_cons, procSteps_error_cons]
    rfl
  have hcomp : ∀ (r : Mapping) (c s : String),
      procSteps r [completedMapping c s] = [] := by
    intro r c s
    rw [procSteps_completed_cons]
    rfl
  have hpre3 : procSteps initialStatusMapping
      [processingInitMapping, decodeStepMapping, convertStepMapping]
      = [0, 1, 2] := by decide
  by_cases hd : env.decodeOk = false
  · have htr : (process_document env p).1
        = [processingInitMapping, decodeStepMapping, decodeFailMapping,
           errorMapping "Invalid content format in Redis"] := by
      simp [process_document, hd]
    have hconc : procSteps initialStatusMapping
        [processingInitMapping, decodeStepMapping, decodeFailMapping,
         errorMapping "Invalid content format in Redis"] = [0, 1] := by
      decide
    rw [htr, hconc]
    exact chain_le_01
  · have hd' : env.decodeOk = true := by
      cases h : env.decodeOk
      · exact absurd h hd
      · rfl
    by_cases hg : p = "gemini"
    · subst hg
      cases hconv : env.convert with
      | error e =>
          have hpg : process_with_gemini env = ([], Except.error e) := by
            simp [process_with_gemini, hconv]
          cases he : e.isVE with
          | true =>
              have htr : (process_document env "gemini").1
                  = [processingInitMapping, decodeStepMapping,
                     convertStepMapping]
                    ++ [errorMapping e.msg, errorMapping e.msg] := by
                simp [process_document, hd', hpg, he]
              rw [htr, procSteps_append, hpre3, herr2, List.append_nil]
              exact chain_le_012
          | false =>
              have htr : (process_document env "gemini").1
                  = [processingInitMapping, decodeStepMapping,
                     convertStepMapping]
                    ++ [errorMapping e.msg] := by
                simp [process_document, hd', hpg, he]
              rw [htr, procSteps_append, hpre3, herr1, List.append_nil]
              exact chain_le_012
      | ok images =>
        cases hloop : geminiLoop env images.length (images.enumFrom 1) with
        | mk ltr lres =>
          have hs3 : getField (applyWrites initialStatusMapping
              [processingInitMapping, decodeStepMapping, convertStepMapping])
              "status" = some "processing" := by decide
          have hGL := geminiLoop_procSteps env images.length
            (images.enumFrom 1)
            (applyWrites initialStatusMapping
              [processingInitMapping, decodeStepMapping, convertStepMapping])
            hs3
          rw [hloop] at hGL
          cases lres with
          | error e =>
              have hpg : process_with_gemini env = (ltr, Except.error e) := by
                simp [process_with_gemini, hconv, hloop]
              cases he : e.isVE with
              | true =>
                  have htr : (process_document env "gemini").1
                      = ([processingInitMapping, decodeStepMapping,
                          convertStepMapping] ++ ltr)
                        ++ [errorMapping e.msg, errorMapping e.msg] := by
                    simp [process_document, hd', hpg, he]
                  rw [htr]
                  simp only [procSteps_append, applyWrites_append]
                  rw [hpre3, hGL.1, herr2]
                  simp only [List.append_nil]
                  exact chain_le_steps_rep _
              | false =>
                  have htr : (process_document env "gemini").1
                      = ([processingInitMapping, decodeStepMapping,
                          convertStepMapping] ++ ltr)
                        ++ [errorMapping e.msg] := by
                    simp [process_document, hd', hpg, he]
                  rw [htr]
                  simp only [procSteps_append, applyWrites_append]
                  rw [hpre3, hGL.1, herr1]
                  simp only [List.append_nil]
                  exact chain_le_steps_rep _
          | ok texts =>
            have hsummary : procSteps (applyWrites (applyWrites
                initialStatusMapping
                [processingInitMapping, decodeStepMapping, convertStepMapping])
                ltr) [summaryMapping]
                = [4] := by
              rw [procSteps_summary_cons _ _ hGL.2]
              rfl
            cases hgen :
                env.generate (summaryPrompt (String.intercalate "\n\n" texts))
                with
            | error e =>
                have hpg : process_with_gemini env
                    = (ltr ++ [summaryMapping], Except.error e) := by
                  simp [process_with_gemini, hconv, hloop, hgen]
                cases he : e.isVE with
                | true =>
                    have htr : (process_document env "gemini").1
                        = (([processingInitMapping, decodeStepMapping,
                             convertStepMapping] ++ ltr) ++ [summaryMapping])
                          ++ [errorMapping e.msg, errorMapping e.msg] := by
                      simp [process_document, hd', hpg, he]
                    rw [htr]
                    simp only [procSteps_append, applyWrites_append]
                    rw [hpre3, hGL.1, hsummary, herr2]
                    simp only [List.append_nil]
                    exact chain_le_steps_rep4 _
                | false =>
                    have htr : (process_document env "gemini").1
                        = (([processingInitMapping, decodeStepMapping,
                             convertStepMapping] ++ ltr) ++ [summaryMapping])
                          ++ [errorMapping e.msg] := by
                      simp [process_document, hd', hpg, he]
                    rw [htr]
                    simp only [procSteps_append, applyWrites_append]
                    rw [hpre3, hGL.1, hsummary, herr1]
                    simp only [List.append_nil]
                    exact chain_le_steps_rep4 _
            | ok smm =>
                have hpg : process_with_gemini env
                    = (ltr ++ [summaryMapping],
                       Except.ok ("\n\n" ++ String.intercalate "\n\n" texts
                         ++ "\n\n---\n*This content was extracted using Google Gemini Vision API and formatted in markdown.*",
                         smm)) := by
                  simp [process_with_gemini, hconv, hloop, hgen]
                have htr : (process_document env "gemini").1
                    = (([processingInitMapping, decodeStepMapping,
                         convertStepMapping] ++ ltr) ++ [summaryMapping])
                      ++ [completedMapping
                            ("\n\n" ++ String.intercalate "\n\n" texts
                              ++ "\n\n---\n*This content was extracted using Google Gemini Vision API and formatted in markdown.*")
                            smm] := by
                  simp [process_document, hd', hpg]
                rw [htr]
                simp only [procSteps_append, applyWrites_append]
                rw [hpre3, hGL.1, hsummary, hcomp]
                simp only [List.append_nil]
                exact chain_le_steps_rep4 _
    · by_cases hp : p = "pypdf"
      · subst hp
        cases hres : process_with_pypdf env with
        | ok cs =>
            obtain ⟨c, s0⟩ := cs
            have htr : (process_document env "pypdf").1
                = [processingInitMapping, decodeStepMapping, pypdfStepMapping]
                  ++ [completedMapping c s0] := by
              simp [process_document, hd', hres]
            have hprep : procSteps initialStatusMapping
                [processingInitMapping, decodeStepMapping, pypdfStepMapping]
                = [0, 1, 2] := by decide
            rw [htr, procSteps_append, hprep, hcomp, List.append_nil]
            exact chain_le_012
        | error e =>
            have htr : (process_document env "pypdf").1
                = [processingInitMapping, decodeStepMapping, pypdfStepMapping]
                  ++ [errorMapping e.msg, errorMapping e.msg] := by
              simp [process_document, hd', hres]
            have hprep : procSteps initialStatusMapping
                [processingInitMapping, decodeStepMapping, pypdfStepMapping]
                = [0, 1, 2] := by decide
            rw [htr, procSteps_append, hprep, herr2, List.append_nil]
            exact chain_le_012
      · have htr : (process_document env p).1
            = [processingInitMapping, decodeStepMapping]
              ++ [errorMapping ("Unsupported parser: " ++ p)] := by
          simp [process_document, hd', hg, hp]
        have hpre2 : procSteps initialStatusMapping
            [processingInitMapping, decodeStepMapping] = [0, 1] := by decide
        rw [htr, procSteps_append, hpre2, herr1, List.append_nil]
        exact chain_le_01

/-- Claim C8 is refuted over the whole write history of a document:
because a failed delivery is never acknowledged, the entry is
redelivered, and the redelivery resets `current_step_number` to 0 while
putting the record back into `processing` — so the processing-state
step sequence `[0, 1, 2, 0, 1, 2]` decreases at the redelivery
boundary. -/
theorem step_monotonicity_redelivery_counterexample :
    procSteps initialStatusMapping
        ((handleMessage envPypdfFail "pypdf").1
          ++ (handleMessage envAllOk "pypdf").1)
      = [0, 1, 2, 0, 1, 2] ∧
    ¬ List.Chain' (· ≤ ·) ([0, 1, 2, 0, 1, 2] : List Nat) := by
  constructor
  · decide
  · intro h
    simp [List.chain'_cons] at h

/-- Witness: the amended C4 theorem at a concrete failing decode. -/
theorem decode_failure_error_unacked_witness :
    handleMessage envDecodeFail "pypdf"
      = ([processingInitMapping, decodeStepMapping, decodeFailMapping,
          errorMapping "Invalid content format in Redis"], false) ∧
    getField (applyWrites initialStatusMapping
        (handleMessage envDecodeFail "pypdf").1) "status" = some "error" ∧
    getField (applyWrites initialStatusMapping
        (handleMessage envDecodeFail "pypdf").1) "error"
      = some "Invalid content format in Redis" :=
  decode_failure_error_unacked envDecodeFail "pypdf" rfl

end AIPDF
